import Mathlib

/-!
Verification of the Raspberry Pi 5 / Waveshare AD-DA hat driver layer.

The development shallowly embeds the device-control layer of the
repository: the gpio claim/release wrapper, the serial-bus (spi)
configuration, teardown, and the caller-side numeric conversions, as
found in src/DAC8532/python3/config_patched.py and the application
files. The ADS1256 and DAC8532 chip-driver modules are imported by the
applications but their source is not part of the given tree; those
operations are modelled from the specification and marked as such.

The external lgpio chip library is modelled by a small state: the set of
kernel-claimed lines and an open/closed flag for the chip handle.
Claiming a line fails when the handle is closed or the line is already
claimed; freeing fails when the handle is closed or the line is not
claimed; closing fails when the handle is already closed. The external
spidev object is modelled by its configuration fields and an open flag;
its close is idempotent at the python level.
-/

namespace ADDAC

/-- Direction a gpio line is claimed in; GPIOWrapper.OUT is the string
"out" and GPIOWrapper.IN the string "in" in the source. -/
inductive Mode where
  | out : Mode
  | inp : Mode
deriving DecidableEq

/-- State of the lgpio chip: whether the handle from gpiochip_open is
still open, and which lines are kernel-claimed. -/
structure Chip where
  openh : Bool
  kclaimed : List Nat
deriving DecidableEq

/-- Models the external lgpio gpio_claim_output / gpio_claim_input:
fails when the handle is closed or the line is already claimed. -/
def gpioClaim (c : Chip) (pin : Nat) : Except Unit Chip :=
  if c.openh = true ∧ pin ∉ c.kclaimed then
    .ok { c with kclaimed := pin :: c.kclaimed }
  else .error ()

/-- Models the external lgpio gpio_free: fails when the handle is
closed or the line is not claimed. -/
def gpioFree (c : Chip) (pin : Nat) : Except Unit Chip :=
  if c.openh = true ∧ pin ∈ c.kclaimed then
    .ok { c with kclaimed := c.kclaimed.filter (fun q => decide (q ≠ pin)) }
  else .error ()

/-- Models the external lgpio gpiochip_close: fails when the handle is
already closed. -/
def gpiochipClose (c : Chip) : Except Unit Chip :=
  if c.openh then .ok { c with openh := false } else .error ()

/-- The GPIOWrapper's claimed dict: pin to mode, insertion-ordered. -/
structure Wrapper where
  claimed : List (Nat × Mode)
deriving DecidableEq

/-- Membership test, the python "pin in self.claimed". -/
def hasClaimed (w : Wrapper) (pin : Nat) : Bool :=
  w.claimed.any (fun q => q.1 == pin)

/-- Dict update, the python "self.claimed[pin] = mode". -/
def setClaimed (w : Wrapper) (pin : Nat) (m : Mode) : Wrapper :=
  if hasClaimed w pin then
    ⟨w.claimed.map (fun q => if q.1 == pin then (pin, m) else q)⟩
  else ⟨w.claimed ++ [(pin, m)]⟩

/-- Dict deletion, the python "del self.claimed[pin]". -/
def removeClaimed (w : Wrapper) (pin : Nat) : Wrapper :=
  ⟨w.claimed.filter (fun q => decide (q.1 ≠ pin))⟩

/-- Dict key list, the python "list(self.claimed.keys())". -/
def keysOf (w : Wrapper) : List Nat :=
  w.claimed.map Prod.fst

/-- Dict lookup of the recorded mode of a pin. -/
def lookupMode (w : Wrapper) (pin : Nat) : Option Mode :=
  (w.claimed.find? (fun q => q.1 == pin)).map Prod.snd

/-- GPIOWrapper.setup from config_patched.py: try to claim the pin in
the given mode; on an lgpio error, free the pin first when it is in
this wrapper's claimed dict (ignoring a free failure), then claim once
more; on success record the mode in the dict. -/
def setup (c : Chip) (w : Wrapper) (pin : Nat) (mode : Mode) :
    Except Unit (Chip × Wrapper) :=
  match gpioClaim c pin with
  | .ok c1 => .ok (c1, setClaimed w pin mode)
  | .error _ =>
    let c1 := if hasClaimed w pin then
        match gpioFree c pin with
        | .ok c2 => c2
        | .error _ => c
      else c
    match gpioClaim c1 pin with
    | .ok c2 => .ok (c2, setClaimed w pin mode)
    | .error _ => .error ()

/-- Modelled from the spec: the claim protocol as the specification
words it — attempt the claim; on a conflict, release the pin first and
then attempt the claim exactly once more, for every pin regardless of
whether this process had previously claimed it. Stated for comparison
with the setup function actually in the source. -/
def claimSpecTwoStep (c : Chip) (w : Wrapper) (pin : Nat) (mode : Mode) :
    Except Unit (Chip × Wrapper) :=
  match gpioClaim c pin with
  | .ok c1 => .ok (c1, setClaimed w pin mode)
  | .error _ =>
    let c1 := match gpioFree c pin with
      | .ok c2 => c2
      | .error _ => c
    match gpioClaim c1 pin with
    | .ok c2 => .ok (c2, setClaimed w pin mode)
    | .error _ => .error ()

/-- The per-pin loop of GPIOWrapper.cleanup: for each key of the dict
snapshot, try gpio_free and delete the dict entry, swallowing any lgpio
error for that pin and continuing with the rest. -/
def freeLoop (c : Chip) (w : Wrapper) : List Nat → Chip × Wrapper
  | [] => (c, w)
  | p :: ps =>
    match gpioFree c p with
    | .ok c1 => freeLoop c1 (removeClaimed w p) ps
    | .error _ => freeLoop c w ps

/-- GPIOWrapper.cleanup from config_patched.py: run the per-pin free
loop over a snapshot of the claimed keys, then close the chip handle;
an lgpio error from the close is not caught and propagates. -/
def cleanup (c : Chip) (w : Wrapper) : Except Unit (Chip × Wrapper) :=
  let cw := freeLoop c w (keysOf w)
  match gpiochipClose cw.1 with
  | .ok c2 => .ok (c2, cw.2)
  | .error _ => .error ()

/-- State of the external spidev object: its open flag and the two
configuration fields the program sets. -/
structure Spi where
  isopen : Bool
  max_speed_hz : Nat
  mode : Nat
deriving DecidableEq

/-- Models spidev SpiDev.open(0, 0). -/
def spiOpen (s : Spi) : Spi := { s with isopen := true }

/-- Assignment to spi.max_speed_hz. -/
def setMaxSpeed (s : Spi) (v : Nat) : Spi := { s with max_speed_hz := v }

/-- Assignment to spi.mode. -/
def setSpiMode (s : Spi) (m : Nat) : Spi := { s with mode := m }

/-- Models spidev SpiDev.close, which is idempotent at the python
level: it closes the file descriptor when open and resets it. -/
def spiClose (s : Spi) : Spi := { s with isopen := false }

/-- The module-load spi configuration of config_patched.py: open bus
(0, 0), set max_speed_hz to 1000000 (1.0 MHz), set mode to 0. -/
def spiAfterSetup : Spi :=
  setSpiMode (setMaxSpeed (spiOpen ⟨false, 0, 0⟩) 1000000) 0

/-- Every operation of the program that touches the spi object after
the module-load configuration: spi_writebyte (xfer2), spi_readbytes
(readbytes), and the close performed by destroy. -/
inductive SpiOp where
  | writebyte : List Nat → SpiOp
  | readbytes : Nat → SpiOp
  | closeOp : SpiOp

/-- Effect of each spi-touching operation on the spidev state: xfer2
and readbytes leave the configuration untouched; close clears the open
flag and nothing else. -/
def spiStep (s : Spi) : SpiOp → Spi
  | .writebyte _ => s
  | .readbytes _ => s
  | .closeOp => spiClose s

/-- Run a sequence of spi-touching operations. -/
def spiRun (s : Spi) (ops : List SpiOp) : Spi :=
  ops.foldl spiStep s

/-- destroy from config_patched.py: GPIO.cleanup() then spi.close();
when cleanup raises, spi.close() is not reached. -/
def destroy (c : Chip) (w : Wrapper) (sp : Spi) :
    Except Unit (Chip × Wrapper × Spi) :=
  match cleanup c w with
  | .ok (c1, w1) => .ok (c1, w1, spiClose sp)
  | .error _ => .error ()

/-- Pin constant from config_patched.py. -/
def RST_PIN : Nat := 18

/-- Pin constant from config_patched.py. -/
def CS_PIN : Nat := 22

/-- Pin constant from config_patched.py. -/
def CS_DAC_PIN : Nat := 23

/-- Pin constant from config_patched.py. -/
def DRDY_PIN : Nat := 17

/-- module_init from config_patched.py: setmode (a no-op in the
wrapper), then setup of RST_PIN, CS_PIN, CS_DAC_PIN as outputs and
DRDY_PIN as input, then return 0. An uncaught setup failure
propagates. -/
def module_init (c : Chip) (w : Wrapper) :
    Except Unit (Nat × Chip × Wrapper) :=
  match setup c w RST_PIN .out with
  | .error _ => .error ()
  | .ok (c1, w1) =>
    match setup c1 w1 CS_PIN .out with
    | .error _ => .error ()
    | .ok (c2, w2) =>
      match setup c2 w2 CS_DAC_PIN .out with
      | .error _ => .error ()
      | .ok (c3, w3) =>
        match setup c3 w3 DRDY_PIN .inp with
        | .error _ => .error ()
        | .ok (c4, w4) => .ok (0, c4, w4)

namespace Adc

/-- Modelled from the spec: the ADS1256 driver module imported by the
applications is not part of the given source tree. Hardware oracle for
the ADC: per-channel conversion readiness as seen by wait_ready, and
the signed sample value read back for each selected channel. -/
structure Hw where
  ready : Nat → Bool
  sample : Nat → Int

/-- Modelled from the spec: driver state, the channel currently routed
by the input multiplexer. -/
structure St where
  selected : Nat
deriving DecidableEq

/-- Modelled from the spec: select_channel writes the channel-multiplex
command, making the given channel the selected one. -/
def selectChannel (_s : St) (ch : Nat) : St := ⟨ch⟩

/-- Modelled from the spec: wait_ready polls the data-ready line for
the selected channel; on timeout it fails with ConversionTimeout
rather than returning a sample. -/
def waitReady (hw : Hw) (s : St) : Except Unit Unit :=
  if hw.ready s.selected then .ok () else .error ()

/-- Modelled from the spec: read_sample reads back the signed sample of
the currently selected channel. -/
def readSampleAt (hw : Hw) (s : St) : Int :=
  hw.sample s.selected

/-- Modelled from the spec: the per-channel cycle of ADS1256_GetAll,
select_channel then wait_ready then read_sample for each listed
channel, aborting the whole batch on a timeout. -/
def scanChannels (hw : Hw) (s : St) : List Nat → Except Unit (List Int × St)
  | [] => .ok ([], s)
  | ch :: rest =>
    let s1 := selectChannel s ch
    match waitReady hw s1 with
    | .error _ => .error ()
    | .ok _ =>
      match scanChannels hw s1 rest with
      | .error _ => .error ()
      | .ok (vs, s2) => .ok (readSampleAt hw s1 :: vs, s2)

/-- Modelled from the spec: ADS1256_GetAll performs the cycle for each
of the 8 channels in ascending order. -/
def getAll (hw : Hw) (s : St) : Except Unit (List Int × St) :=
  scanChannels hw s (List.range 8)

/-- Modelled from the spec: read_sample assembles the three read bytes
big-endian into a 24-bit raw value and sign-extends when the top bit
(bit 23) is set. -/
def readSampleBytes (b0 b1 b2 : Nat) : Int :=
  let raw := b0 * 65536 + b1 * 256 + b2
  if Nat.testBit raw 23 then (raw : Int) - 2 ^ 24 else (raw : Int)

end Adc

namespace Dac

/-- Reference voltage of the converters, 5.0 V. -/
def VREF : ℚ := 5

/-- Modelled from the spec: write_channel first clamps the requested
voltage to the range 0 to VREF (out-of-range values saturate). -/
def clampV (v : ℚ) : ℚ := max 0 (min v VREF)

/-- Modelled from the spec: the DAC8532 driver module imported by the
applications is not part of the given source tree; the 16-bit register
encoding is register = round(voltage / VREF * (2 to the 16 minus 1)). -/
def encodeReg (v : ℚ) : Int := round (clampV v / VREF * 65535)

/-- Modelled from the spec: the framed bytes of write_channel, a
channel command byte followed by the two register bytes big-endian. -/
def writeChannelFrame (cmd : Nat) (v : ℚ) : List Nat :=
  [cmd, (encodeReg v).toNat / 256, (encodeReg v).toNat % 256]

end Dac

/-- Caller-side voltage recovery printed by src/python/AD-DA/main.py
and src/python/ADS1256/main.py: ADC_Value[i] * 5.0 / 0x7fffff. -/
def mainRecover (s : Int) : ℚ := (s : ℚ) * 5 / 0x7fffff

/-- Constant from src/c-v2/ADS1256/plot_adc_data.py. -/
def VREF_PLOT : ℚ := 5

/-- Constant from src/c-v2/ADS1256/plot_adc_data.py: 2 to the 23 minus
1 for a 24-bit signed ADC. -/
def MAX_ADC_VALUE_POSITIVE : ℚ := 8388607

/-- Constant from src/c-v2/ADS1256/plot_adc_data.py. -/
def PGA_GAIN : ℚ := 1

/-- Voltage conversion of plot_adc_data.py:
(raw / MAX_ADC_VALUE_POSITIVE) * VREF / PGA_GAIN. -/
def plotRecover (s : ℚ) : ℚ := s / MAX_ADC_VALUE_POSITIVE * VREF_PLOT / PGA_GAIN

/-- The recovery formula as the specification states it:
sample * VREF / (2 to the 23 minus 1). -/
def specRecover (s : Int) : ℚ := (s : ℚ) * Dac.VREF / (2 ^ 23 - 1)

/-- Filtering out a pin that is not in the list changes nothing. -/
theorem filter_ne_of_not_mem (l : List Nat) (pin : Nat) (h : pin ∉ l) :
    List.filter (fun q => !decide (q = pin)) l = l :=
  List.filter_eq_self.mpr (fun a ha => by
    simp only [Bool.not_eq_true', decide_eq_false_iff_not]
    exact fun e => h (e ▸ ha))

/-- Characterization of GPIOWrapper.setup in the lgpio model: it
succeeds exactly when the handle is open and the pin is either free at
the kernel or recorded in this wrapper's claimed dict; on success the
pin ends up kernel-claimed and recorded with the requested mode. -/
theorem setup_eq (c : Chip) (w : Wrapper) (pin : Nat) (m : Mode) :
    setup c w pin m =
      if c.openh = true ∧ (pin ∉ c.kclaimed ∨ hasClaimed w pin = true) then
        .ok (⟨true, pin :: c.kclaimed.filter (fun q => decide (q ≠ pin))⟩,
          setClaimed w pin m)
      else .error () := by
  by_cases ho : c.openh = true
  · by_cases hm : pin ∈ c.kclaimed
    · by_cases hw : hasClaimed w pin = true
      · simp [setup, gpioClaim, gpioFree, ho, hm, hw]
      · simp [setup, gpioClaim, gpioFree, ho, hm, hw]
    · simp [setup, gpioClaim, ho, hm]
      exact (filter_ne_of_not_mem c.kclaimed pin hm).symm
  · simp [setup, gpioClaim, gpioFree, ho]

/-- A successful setup records the requested mode in the dict. -/
theorem setup_ok_wrapper (c : Chip) (w : Wrapper) (pin : Nat) (m : Mode)
    (c1 : Chip) (w1 : Wrapper) (h : setup c w pin m = .ok (c1, w1)) :
    w1 = setClaimed w pin m ∧
      c1 = ⟨true, pin :: c.kclaimed.filter (fun q => decide (q ≠ pin))⟩ := by
  rw [setup_eq] at h
  split at h
  · rw [Except.ok.injEq, Prod.mk.injEq] at h
    exact ⟨h.2.symm, h.1.symm⟩
  · exact absurd h (by simp)

/-- Updating a present key by mapping makes find? return the new pair. -/
theorem find?_update (l : List (Nat × Mode)) (pin : Nat) (m : Mode)
    (h : l.any (fun q => q.1 == pin) = true) :
    (l.map (fun q => if q.1 == pin then (pin, m) else q)).find?
      (fun q => q.1 == pin) = some (pin, m) := by
  induction l with
  | nil => simp at h
  | cons q qs ih =>
    rw [List.map_cons]
    by_cases hq : q.1 = pin
    · have he : (if (q.1 == pin) = true then (pin, m) else q) = (pin, m) := by
        simp [hq]
      rw [he, List.find?_cons_of_pos _ (by simp)]
    · have he : (if (q.1 == pin) = true then (pin, m) else q) = q := by
        simp [hq]
      have hqs : qs.any (fun q => q.1 == pin) = true := by
        simpa [List.any_cons, hq] using h
      rw [he, List.find?_cons_of_neg _ (by simp [hq]), ih hqs]

/-- Appending a fresh key makes find? return the appended pair. -/
theorem find?_append_fresh (l : List (Nat × Mode)) (pin : Nat) (m : Mode)
    (h : l.any (fun q => q.1 == pin) = false) :
    (l ++ [(pin, m)]).find? (fun q => q.1 == pin) = some (pin, m) := by
  induction l with
  | nil => rw [List.nil_append, List.find?_cons_of_pos _ (by simp)]
  | cons q qs ih =>
    have hq : ¬ q.1 = pin := by
      intro e
      simp [List.any_cons, e] at h
    have hqs : qs.any (fun q => q.1 == pin) = false := by
      simpa [List.any_cons, hq] using h
    rw [List.cons_append, List.find?_cons_of_neg _ (by simp [hq]), ih hqs]

/-- After setClaimed, the dict maps the pin to the given mode. -/
theorem lookupMode_setClaimed_self (w : Wrapper) (pin : Nat) (m : Mode) :
    lookupMode (setClaimed w pin m) pin = some m := by
  unfold setClaimed
  by_cases hw : hasClaimed w pin = true
  · rw [if_pos hw]
    show ((w.claimed.map (fun q => if q.1 == pin then (pin, m) else q)).find?
      (fun q => q.1 == pin)).map Prod.snd = some m
    rw [find?_update w.claimed pin m hw]
    rfl
  · rw [if_neg hw]
    show ((w.claimed ++ [(pin, m)]).find? (fun q => q.1 == pin)).map Prod.snd
      = some m
    rw [find?_append_fresh w.claimed pin m (Bool.eq_false_iff.mpr
      (fun e => hw (by exact e)))]
    rfl

/-- A pin with a recorded mode is in the claimed dict. -/
theorem hasClaimed_of_lookup (w : Wrapper) (pin : Nat) (m : Mode)
    (h : lookupMode w pin = some m) : hasClaimed w pin = true := by
  unfold lookupMode at h
  unfold hasClaimed
  obtain ⟨q, hq, _⟩ := Option.map_eq_some'.mp h
  have hp := List.find?_some (p := fun q : Nat × Mode => q.1 == pin) hq
  exact List.any_eq_true.mpr ⟨q, List.mem_of_find?_eq_some hq, hp⟩

/-- Claim C1: calling claim (GPIOWrapper.setup) twice in a row on the
same pin never fails: after any successful claim of a pin, a second
claim of that pin in any direction succeeds (the already-claimed pin is
released and re-claimed) and leaves the pin recorded and kernel-claimed
in the direction given by the second call. -/
theorem claim_twice_ok (c : Chip) (w : Wrapper) (pin : Nat) (d1 d2 : Mode)
    (c1 : Chip) (w1 : Wrapper) (h : setup c w pin d1 = .ok (c1, w1)) :
    ∃ c2 w2, setup c1 w1 pin d2 = .ok (c2, w2) ∧
      lookupMode w2 pin = some d2 ∧ pin ∈ c2.kclaimed := by
  obtain ⟨hw1, hc1⟩ := setup_ok_wrapper c w pin d1 c1 w1 h
  subst hw1
  subst hc1
  have hh : hasClaimed (setClaimed w pin d1) pin = true :=
    hasClaimed_of_lookup _ _ _ (lookupMode_setClaimed_self w pin d1)
  rw [setup_eq]
  rw [if_pos ⟨rfl, Or.inr hh⟩]
  exact ⟨_, _, rfl, lookupMode_setClaimed_self _ pin d2, List.mem_cons_self _ _⟩

/-- Witness for C1: on a fresh chip, pin 18 is claimed as output; the
theorem then yields a successful second claim as input. -/
theorem claim_twice_ok_witness :
    ∃ c2 w2, setup ⟨true, [18]⟩ ⟨[(18, Mode.out)]⟩ 18 .inp = .ok (c2, w2) ∧
      lookupMode w2 18 = some .inp ∧ 18 ∈ c2.kclaimed :=
  claim_twice_ok ⟨true, []⟩ ⟨[]⟩ 18 .out .inp ⟨true, [18]⟩ ⟨[(18, Mode.out)]⟩ rfl

/-- Claim C2, counterexample: for a pin claimed at the kernel by a
prior process (so not recorded in this wrapper's dict), setup does not
release before retrying and fails, whereas the unconditional
release-then-retry protocol the claim describes would succeed. -/
theorem setup_not_spec_two_step :
    setup ⟨true, [5]⟩ ⟨[]⟩ 5 .out = .error () ∧
      claimSpecTwoStep ⟨true, [5]⟩ ⟨[]⟩ 5 .out =
        .ok (⟨true, [5]⟩, ⟨[(5, Mode.out)]⟩) :=
  ⟨rfl, rfl⟩

/-- Claim C2, amended: setup retries the claim exactly once after a
conflict, but releases the pin before the retry only when this process
had recorded the pin in its claimed dict; consequently it fails exactly
when the handle is closed or the pin is kernel-claimed and not recorded
in the wrapper. -/
theorem setup_error_iff (c : Chip) (w : Wrapper) (pin : Nat) (m : Mode) :
    setup c w pin m = .error () ↔
      c.openh = false ∨ (pin ∈ c.kclaimed ∧ hasClaimed w pin = false) := by
  rw [setup_eq]
  by_cases ho : c.openh = true
  · by_cases hm : pin ∈ c.kclaimed
    · by_cases hw : hasClaimed w pin = true
      · simp [ho, hm, hw]
      · simp only [Bool.not_eq_true] at hw
        simp [ho, hm, hw]
    · simp [ho, hm]
  · simp only [Bool.not_eq_true] at ho
    simp [ho]

/-- Shape of a successful gpio_free. -/
theorem gpioFree_ok (c : Chip) (pin : Nat) (c1 : Chip)
    (h : gpioFree c pin = .ok c1) :
    c1.openh = c.openh ∧
      c1.kclaimed = c.kclaimed.filter (fun q => decide (q ≠ pin)) := by
  unfold gpioFree at h
  split_ifs at h with hc
  cases Except.ok.inj h
  exact ⟨rfl, rfl⟩

/-- A failing gpio_free on an open handle means the pin was not
kernel-claimed. -/
theorem gpioFree_error (c : Chip) (pin : Nat) (ho : c.openh = true)
    (h : gpioFree c pin = .error ()) : pin ∉ c.kclaimed := by
  unfold gpioFree at h
  split_ifs at h with hc
  exact fun hm => hc ⟨ho, hm⟩

/-- The per-pin free loop never touches the open flag of the handle. -/
theorem freeLoop_openh (ps : List Nat) (c : Chip) (w : Wrapper) :
    (freeLoop c w ps).1.openh = c.openh := by
  induction ps generalizing c w with
  | nil => rfl
  | cons p ps ih =>
    unfold freeLoop
    cases hf : gpioFree c p with
    | ok c1 => rw [ih c1 (removeClaimed w p)]; exact (gpioFree_ok c p c1 hf).1
    | error e => exact ih c w

/-- The per-pin free loop only removes kernel claims. -/
theorem freeLoop_kclaimed_subset (ps : List Nat) (c : Chip) (w : Wrapper) :
    ∀ x ∈ (freeLoop c w ps).1.kclaimed, x ∈ c.kclaimed := by
  induction ps generalizing c w with
  | nil => exact fun x hx => hx
  | cons p ps ih =>
    unfold freeLoop
    cases hf : gpioFree c p with
    | ok c1 =>
      intro x hx
      have hx1 := ih c1 (removeClaimed w p) x hx
      rw [(gpioFree_ok c p c1 hf).2] at hx1
      exact (List.mem_filter.mp hx1).1
    | error e => exact ih c w

/-- Every pin in the processed list ends up not kernel-claimed after
the free loop, when the handle is open. -/
theorem freeLoop_not_mem (ps : List Nat) (p : Nat) :
    ∀ (c : Chip) (w : Wrapper), c.openh = true → p ∈ ps →
      p ∉ (freeLoop c w ps).1.kclaimed := by
  induction ps with
  | nil => exact fun c w _ hp => absurd hp (List.not_mem_nil p)
  | cons q qs ih =>
    intro c w ho hp
    unfold freeLoop
    cases hf : gpioFree c q with
    | ok c1 =>
      obtain ⟨h1, h2⟩ := gpioFree_ok c q c1 hf
      rcases List.mem_cons.mp hp with he | hqs
      · subst he
        intro hx
        have hx1 := freeLoop_kclaimed_subset qs c1 (removeClaimed w p) p hx
        rw [h2] at hx1
        have := (List.mem_filter.mp hx1).2
        simp at this
      · exact ih c1 (removeClaimed w q) (h1.trans ho) hqs
    | error e =>
      rcases List.mem_cons.mp hp with he | hqs
      · subst he
        have hnm := gpioFree_error c p ho hf
        intro hx
        exact hnm (freeLoop_kclaimed_subset qs c w p hx)
      · exact ih c w ho hqs

/-- With the handle closed, cleanup fails at the chip close. -/
theorem cleanup_error_of_closed (c : Chip) (w : Wrapper)
    (ho : c.openh = false) : cleanup c w = .error () := by
  have hop : (freeLoop c w (keysOf w)).1.openh = false := by
    rw [freeLoop_openh]
    exact ho
  simp [cleanup, gpiochipClose, hop]

/-- With the handle open, cleanup succeeds and closes the handle. -/
theorem cleanup_ok_of_open (c : Chip) (w : Wrapper) (ho : c.openh = true) :
    ∃ c1 w1, cleanup c w = .ok (c1, w1) ∧ c1.openh = false := by
  have hop : (freeLoop c w (keysOf w)).1.openh = true :=
    (freeLoop_openh (keysOf w) c w).trans ho
  refine ⟨⟨false, (freeLoop c w (keysOf w)).1.kclaimed⟩,
    (freeLoop c w (keysOf w)).2, ?_, rfl⟩
  simp [cleanup, gpiochipClose, hop]

/-- Claim C4, amended: cleanup attempts to free every currently
claimed pin and, with the handle open, leaves each of them released at
the kernel; per-pin release failures are swallowed and the loop
continues, so the loop itself never propagates a failure and cleanup
returns successfully after closing the handle. A second call is not
safe, as the separate counterexample shows. -/
theorem cleanup_frees_all (c : Chip) (w : Wrapper) (ho : c.openh = true) :
    (∀ p ∈ keysOf w, p ∉ (freeLoop c w (keysOf w)).1.kclaimed) ∧
      ∃ c1 w1, cleanup c w = .ok (c1, w1) ∧ c1.openh = false := by
  exact ⟨fun p hp => freeLoop_not_mem (keysOf w) p c w ho hp,
    cleanup_ok_of_open c w ho⟩

/-- Witness for C4: a wrapper holding one kernel-claimed pin (18) and
one stale entry (5) whose free fails and is swallowed; cleanup still
succeeds and pin 18 is released. -/
theorem cleanup_frees_all_witness :
    (∀ p ∈ keysOf ⟨[(18, Mode.out), (5, Mode.inp)]⟩,
      p ∉ (freeLoop ⟨true, [18]⟩ ⟨[(18, Mode.out), (5, Mode.inp)]⟩
        (keysOf ⟨[(18, Mode.out), (5, Mode.inp)]⟩)).1.kclaimed) ∧
      ∃ c1 w1, cleanup ⟨true, [18]⟩ ⟨[(18, Mode.out), (5, Mode.inp)]⟩ =
        .ok (c1, w1) ∧ c1.openh = false :=
  cleanup_frees_all ⟨true, [18]⟩ ⟨[(18, Mode.out), (5, Mode.inp)]⟩ rfl

/-- Claim C4, counterexample: cleanup is not safe to call multiple
times; the second call fails closing the already-closed chip handle. -/
theorem cleanup_twice_fails :
    cleanup ⟨true, []⟩ ⟨[]⟩ = .ok (⟨false, []⟩, ⟨[]⟩) ∧
      cleanup ⟨false, []⟩ ⟨[]⟩ = .error () :=
  ⟨rfl, rfl⟩

/-- Claim C3, amended: a first destroy on an open handle succeeds,
including when no resources were ever acquired, and leaves the handle
closed without destructively re-releasing anything; however a second
destroy in succession fails when it closes the already-closed chip
handle. -/
theorem destroy_once_then_fails (c : Chip) (w : Wrapper) (sp : Spi)
    (ho : c.openh = true) :
    ∃ c1 w1 sp1, destroy c w sp = .ok (c1, w1, sp1) ∧ c1.openh = false ∧
      destroy c1 w1 sp1 = .error () := by
  obtain ⟨c1, w1, hcl, hc1⟩ := cleanup_ok_of_open c w ho
  refine ⟨c1, w1, spiClose sp, ?_, hc1, ?_⟩
  · unfold destroy
    rw [hcl]
  · unfold destroy
    rw [cleanup_error_of_closed c1 w1 hc1]

/-- Witness for C3: a state with pin 18 claimed; the first destroy
succeeds and the second fails. -/
theorem destroy_once_then_fails_witness :
    ∃ c1 w1 sp1, destroy ⟨true, [18]⟩ ⟨[(18, Mode.out)]⟩ spiAfterSetup =
      .ok (c1, w1, sp1) ∧ c1.openh = false ∧ destroy c1 w1 sp1 = .error () :=
  destroy_once_then_fails ⟨true, [18]⟩ ⟨[(18, Mode.out)]⟩ spiAfterSetup rfl

/-- Claim C3, counterexample: on the process state right after module
load (no pins claimed), the first destroy succeeds but the second call
in succession fails, because the chip handle is closed twice. -/
theorem destroy_twice_fails :
    destroy ⟨true, []⟩ ⟨[]⟩ spiAfterSetup =
        .ok (⟨false, []⟩, ⟨[]⟩, ⟨false, 1000000, 0⟩) ∧
      destroy ⟨false, []⟩ ⟨[]⟩ ⟨false, 1000000, 0⟩ = .error () :=
  ⟨rfl, rfl⟩

/-- Each spi-touching operation of the program leaves the clock rate
and the transfer mode untouched. -/
theorem spiStep_preserves (s : Spi) (op : SpiOp) :
    (spiStep s op).max_speed_hz = s.max_speed_hz ∧
      (spiStep s op).mode = s.mode := by
  cases op <;> exact ⟨rfl, rfl⟩

/-- Claim C9: the bus configuration is fixed for the process lifetime;
after the module-load setup sets the clock rate to 1 MHz and the
transfer mode to 0, no sequence of the program's spi-touching
operations changes either value. -/
theorem spi_config_fixed (ops : List SpiOp) :
    (spiRun spiAfterSetup ops).max_speed_hz = 1000000 ∧
      (spiRun spiAfterSetup ops).mode = 0 := by
  have key : ∀ (l : List SpiOp) (s : Spi),
      (spiRun s l).max_speed_hz = s.max_speed_hz ∧
        (spiRun s l).mode = s.mode := by
    intro l
    induction l with
    | nil => exact fun s => ⟨rfl, rfl⟩
    | cons op l ih =>
      intro s
      exact ⟨((ih (spiStep s op)).1).trans (spiStep_preserves s op).1,
        ((ih (spiStep s op)).2).trans (spiStep_preserves s op).2⟩
  exact ⟨(key ops spiAfterSetup).1.trans rfl, (key ops spiAfterSetup).2.trans rfl⟩

/-- Claim C7: every consumer of the driver recovers volts from a
sample with sample * VREF / (2 to the 23 minus 1): the two application
loops compute sample * 5.0 / 0x7fffff and the plotting script computes
sample / 8388607 * 5 / 1, and both equal the specification formula. -/
theorem recover_formula (s : Int) :
    mainRecover s = specRecover s ∧ plotRecover (s : ℚ) = specRecover s := by
  unfold mainRecover plotRecover specRecover VREF_PLOT MAX_ADC_VALUE_POSITIVE
    PGA_GAIN Dac.VREF
  norm_num
  rw [div_mul_eq_mul_div]

/-- Claim C6: a 24-bit raw value assembled big-endian from three bytes
is returned unchanged when bit 23 is clear and as raw minus 2 to the 24
when bit 23 is set; every returned sample lies between -(2 to the 23)
and 2 to the 23 minus 1. -/
theorem read_sample_sign (b0 b1 b2 : Nat)
    (h0 : b0 < 256) (h1 : b1 < 256) (h2 : b2 < 256) :
    (2 ^ 23 ≤ b0 * 65536 + b1 * 256 + b2 →
      Adc.readSampleBytes b0 b1 b2 =
        ((b0 * 65536 + b1 * 256 + b2 : Nat) : Int) - 2 ^ 24) ∧
    (b0 * 65536 + b1 * 256 + b2 < 2 ^ 23 →
      Adc.readSampleBytes b0 b1 b2 =
        ((b0 * 65536 + b1 * 256 + b2 : Nat) : Int)) ∧
    -2 ^ 23 ≤ Adc.readSampleBytes b0 b1 b2 ∧
    Adc.readSampleBytes b0 b1 b2 ≤ 2 ^ 23 - 1 := by
  have hraw : b0 * 65536 + b1 * 256 + b2 < 2 ^ 24 := by omega
  by_cases hge : 2 ^ 23 ≤ b0 * 65536 + b1 * 256 + b2
  · have htb : Nat.testBit (b0 * 65536 + b1 * 256 + b2) 23 = true := by
      rw [Nat.testBit_to_div_mod]
      simp only [decide_eq_true_eq]
      omega
    have hv : Adc.readSampleBytes b0 b1 b2 =
        ((b0 * 65536 + b1 * 256 + b2 : Nat) : Int) - 2 ^ 24 := by
      simp [Adc.readSampleBytes, htb]
    refine ⟨fun _ => hv, fun hlt => absurd hge (by omega), ?_, ?_⟩ <;>
      rw [hv] <;> push_cast <;> omega
  · have htb : Nat.testBit (b0 * 65536 + b1 * 256 + b2) 23 = false := by
      rw [Nat.testBit_to_div_mod]
      simp only [decide_eq_false_iff_not]
      omega
    have hv : Adc.readSampleBytes b0 b1 b2 =
        ((b0 * 65536 + b1 * 256 + b2 : Nat) : Int) := by
      simp [Adc.readSampleBytes, htb]
    refine ⟨fun hge2 => absurd hge2 hge, fun _ => hv, ?_, ?_⟩ <;>
      rw [hv] <;> push_cast <;> omega

/-- Witness for C6 at the all-ones read, which sign-extends to -1. -/
theorem read_sample_sign_witness :
    Adc.readSampleBytes 255 255 255 = -1 ∧
    ((2 ^ 23 ≤ 255 * 65536 + 255 * 256 + 255 →
      Adc.readSampleBytes 255 255 255 =
        ((255 * 65536 + 255 * 256 + 255 : Nat) : Int) - 2 ^ 24) ∧
    (255 * 65536 + 255 * 256 + 255 < 2 ^ 23 →
      Adc.readSampleBytes 255 255 255 =
        ((255 * 65536 + 255 * 256 + 255 : Nat) : Int)) ∧
    -2 ^ 23 ≤ Adc.readSampleBytes 255 255 255 ∧
    Adc.readSampleBytes 255 255 255 ≤ 2 ^ 23 - 1) :=
  ⟨by decide, read_sample_sign 255 255 255 (by decide) (by decide) (by decide)⟩

/-- Claim C5: for a requested voltage in the range 0 to VREF, the DAC
register is round(v / VREF * 65535), it fits in 16 bits, and the
framed bytes are the command byte followed by the two register bytes
big-endian (high byte first, reassembling to the register). -/
theorem dac_write_channel (v : ℚ) (h0 : 0 ≤ v) (h1 : v ≤ Dac.VREF)
    (cmd : Nat) :
    Dac.encodeReg v = round (v / Dac.VREF * 65535) ∧
    0 ≤ Dac.encodeReg v ∧ Dac.encodeReg v ≤ 65535 ∧
    Dac.writeChannelFrame cmd v =
      [cmd, (Dac.encodeReg v).toNat / 256, (Dac.encodeReg v).toNat % 256] ∧
    ((Dac.encodeReg v).toNat / 256) * 256 + (Dac.encodeReg v).toNat % 256 =
      (Dac.encodeReg v).toNat ∧
    (Dac.encodeReg v).toNat / 256 < 256 ∧ (Dac.encodeReg v).toNat % 256 < 256 := by
  have hclamp : Dac.clampV v = v := by
    unfold Dac.clampV
    rw [min_eq_left h1, max_eq_right h0]
  have henc : Dac.encodeReg v = round (v / Dac.VREF * 65535) := by
    unfold Dac.encodeReg
    rw [hclamp]
  have hx0 : 0 ≤ v / Dac.VREF * 65535 := by
    have : 0 ≤ v / Dac.VREF := div_nonneg h0 (by norm_num [Dac.VREF])
    positivity
  have hx1 : v / Dac.VREF * 65535 ≤ 65535 := by
    have hd : v / Dac.VREF ≤ 1 := (div_le_one (by norm_num [Dac.VREF])).mpr
      (by simpa [Dac.VREF] using h1)
    calc v / Dac.VREF * 65535 ≤ 1 * 65535 :=
          mul_le_mul_of_nonneg_right hd (by norm_num)
      _ = 65535 := by norm_num
  have hlo : 0 ≤ Dac.encodeReg v := by
    rw [henc, round_eq]
    exact Int.le_floor.mpr (by push_cast; linarith)
  have hhi : Dac.encodeReg v ≤ 65535 := by
    rw [henc, round_eq]
    have : (⌊v / Dac.VREF * 65535 + 1 / 2⌋ : Int) < 65536 :=
      Int.floor_lt.mpr (by push_cast; linarith)
    omega
  refine ⟨henc, hlo, hhi, rfl, ?_, ?_, ?_⟩ <;> omega

/-- Witness for C5 at channel voltage 2.5 V: the register is 32768
(0x8000) and the frame is the command byte then 0x80 then 0x00. -/
theorem dac_write_channel_witness :
    Dac.encodeReg (5 / 2) = 32768 ∧
    Dac.writeChannelFrame 48 (5 / 2) = [48, 128, 0] ∧
    (Dac.encodeReg (5 / 2) = round ((5 / 2 : ℚ) / Dac.VREF * 65535) ∧
    0 ≤ Dac.encodeReg (5 / 2) ∧ Dac.encodeReg (5 / 2) ≤ 65535 ∧
    Dac.writeChannelFrame 48 (5 / 2) =
      [48, (Dac.encodeReg (5 / 2)).toNat / 256,
        (Dac.encodeReg (5 / 2)).toNat % 256] ∧
    ((Dac.encodeReg (5 / 2)).toNat / 256) * 256 +
        (Dac.encodeReg (5 / 2)).toNat % 256 = (Dac.encodeReg (5 / 2)).toNat ∧
    (Dac.encodeReg (5 / 2)).toNat / 256 < 256 ∧
      (Dac.encodeReg (5 / 2)).toNat % 256 < 256) := by
  have henc : Dac.encodeReg (5 / 2) = 32768 := by
    unfold Dac.encodeReg Dac.clampV Dac.VREF
    norm_num [round_eq]
  refine ⟨henc, ?_, dac_write_channel (5 / 2) (by norm_num)
    (by norm_num [Dac.VREF]) 48⟩
  unfold Dac.writeChannelFrame
  rw [henc]
  decide

/-- For a channel list whose conversions are all ready, the scan
returns the samples of the listed channels in order, ending selected
on the last channel. -/
theorem scanChannels_ok (hw : Adc.Hw) (chans : List Nat) :
    ∀ s : Adc.St, (∀ ch ∈ chans, hw.ready ch = true) →
      Adc.scanChannels hw s chans =
        .ok (chans.map hw.sample,
          chans.foldl (fun _ ch => Adc.St.mk ch) s) := by
  induction chans with
  | nil => exact fun s _ => rfl
  | cons ch rest ih =>
    intro s h
    have hch : hw.ready ch = true := h ch (List.mem_cons_self ch rest)
    have hrest := ih ⟨ch⟩ (fun x hx => h x (List.mem_cons_of_mem ch hx))
    simp [Adc.scanChannels, Adc.waitReady, Adc.selectChannel, hch, hrest,
      Adc.readSampleAt]

/-- Claim C8: whenever all 8 conversions are ready, read_all_channels
returns exactly 8 values, one per channel in ascending channel order
(index i holds channel i's sample), regardless of the channel selected
before the call; each channel goes through select, wait, read. -/
theorem get_all_eight (hw : Adc.Hw) (s : Adc.St)
    (h : ∀ ch, ch < 8 → hw.ready ch = true) :
    ∃ l, Adc.getAll hw s = .ok (l, ⟨7⟩) ∧ l.length = 8 ∧
      ∀ i, i < 8 → l.getD i 0 = hw.sample i := by
  have hl := scanChannels_ok hw (List.range 8) s
    (fun ch hch => h ch (List.mem_range.mp hch))
  refine ⟨(List.range 8).map hw.sample, ?_, by simp, ?_⟩
  · unfold Adc.getAll
    rw [hl]
    have hfold : List.foldl (fun _ ch => Adc.St.mk ch) s (List.range 8) =
        ⟨7⟩ := by
      rw [(by decide : List.range 8 = [0, 1, 2, 3, 4, 5, 6, 7])]
      rfl
    rw [hfold]
  · intro i hi
    interval_cases i <;> rfl

/-- Witness for C8: an always-ready hardware whose sample on channel
ch is ch itself, started with channel 3 selected. -/
theorem get_all_eight_witness :
    ∃ l, Adc.getAll ⟨fun _ => true, fun ch => (ch : Int)⟩ ⟨3⟩ =
        .ok (l, ⟨7⟩) ∧ l.length = 8 ∧
      ∀ i, i < 8 → l.getD i 0 =
        (⟨fun _ => true, fun ch => (ch : Int)⟩ : Adc.Hw).sample i :=
  get_all_eight ⟨fun _ => true, fun ch => (ch : Int)⟩ ⟨3⟩ (fun _ _ => rfl)

/-- A successful module_init returns 0 and its final dict is the four
setups applied in order. -/
theorem module_init_ok (c : Chip) (w : Wrapper) (r : Nat) (c4 : Chip)
    (w4 : Wrapper) (h : module_init c w = .ok (r, c4, w4)) :
    r = 0 ∧ w4 = setClaimed (setClaimed (setClaimed (setClaimed w
      RST_PIN Mode.out) CS_PIN Mode.out) CS_DAC_PIN Mode.out)
        DRDY_PIN Mode.inp := by
  unfold module_init at h
  split at h
  · exact absurd h (by simp)
  rename_i c1 w1 e1
  split at h
  · exact absurd h (by simp)
  rename_i c2 w2 e2
  split at h
  · exact absurd h (by simp)
  rename_i c3 w3 e3
  split at h
  · exact absurd h (by simp)
  rename_i cz wz e4
  rw [Except.ok.injEq, Prod.mk.injEq] at h
  obtain ⟨hr, h45⟩ := h
  rw [Prod.mk.injEq] at h45
  obtain ⟨hc, hwz⟩ := h45
  subst hwz
  refine ⟨hr.symm, ?_⟩
  rw [(setup_ok_wrapper _ _ _ _ _ _ e4).1,
    (setup_ok_wrapper _ _ _ _ _ _ e3).1,
    (setup_ok_wrapper _ _ _ _ _ _ e2).1,
    (setup_ok_wrapper _ _ _ _ _ _ e1).1]

/-- Claim C10: a completed module_init returns 0 and, started from the
fresh wrapper the module creates at load, leaves exactly the four
fixed pins claimed: 18, 22 and 23 as outputs and 17 as input, and no
other pin. -/
theorem module_init_pins (c : Chip) (r : Nat) (c4 : Chip) (w4 : Wrapper)
    (h : module_init c ⟨[]⟩ = .ok (r, c4, w4)) :
    r = 0 ∧ w4.claimed = [(RST_PIN, Mode.out), (CS_PIN, Mode.out),
      (CS_DAC_PIN, Mode.out), (DRDY_PIN, Mode.inp)] := by
  obtain ⟨hr, hw⟩ := module_init_ok c ⟨[]⟩ r c4 w4 h
  subst hw
  exact ⟨hr, rfl⟩

/-- Witness for C10: on a fresh chip and wrapper, module_init returns
0 and the four pins are claimed. -/
theorem module_init_pins_witness :
    0 = 0 ∧ (⟨[(RST_PIN, Mode.out), (CS_PIN, Mode.out),
      (CS_DAC_PIN, Mode.out), (DRDY_PIN, Mode.inp)]⟩ : Wrapper).claimed =
      [(RST_PIN, Mode.out), (CS_PIN, Mode.out),
        (CS_DAC_PIN, Mode.out), (DRDY_PIN, Mode.inp)] :=
  module_init_pins ⟨true, []⟩ 0 ⟨true, [17, 23, 22, 18]⟩
    ⟨[(RST_PIN, Mode.out), (CS_PIN, Mode.out),
      (CS_DAC_PIN, Mode.out), (DRDY_PIN, Mode.inp)]⟩ rfl

end ADDAC

